import Mathlib

/-!
Shallow embedding of `devmem-rs` (`src/lib.rs`): a small library mapping
physical memory (`/dev/mem`) into a process, with a `Mapping` struct,
two transfer operations, a `Drop` impl, and two one-shot helpers.

Machine words are modelled as `Nat` with explicit `% 2^64` where pointer
arithmetic can wrap.  The operating system is modelled by an `Env` record
supplying the page size and the outcomes of the `open`, `mmap` and
`munmap` calls; syscalls actually issued are collected in a trace.
-/

/-- The size of the machine address space: pointers are 64-bit words. -/
def WORD : Nat := 2 ^ 64

/-- `libc::MAP_FAILED`, i.e. `(void * ) -1`, as an unsigned 64-bit word. -/
def MAP_FAILED : Nat := WORD - 1

/-- Virtual memory: a byte at every address. -/
def Mem : Type := Nat → Nat

/-- The environment: page size and the behaviour of the OS calls made by
the library.  `openOk` is whether opening `/dev/mem` succeeds; `mmap`
takes the requested length and file offset and returns `some base` on
success and `none` when the syscall fails (returns `MAP_FAILED`);
`munmapRes` is the return value of `munmap`. -/
structure Env where
  pageSize : Nat
  openOk : Bool
  mmap : Nat → Nat → Option Nat
  munmapRes : Nat → Nat → Int

/-- A syscall as recorded in a trace. -/
inductive Syscall where
  | openDevMem : Syscall
  | mmap (length offset : Nat) : Syscall
  | munmap (base length : Nat) : Syscall
  deriving DecidableEq

/-- The `Mapping` struct of `src/lib.rs`: raw pointers become `Nat`
addresses, `libc::size_t` becomes `Nat`. -/
structure Mapping where
  map_base : Nat
  len : Nat
  slice_base : Nat
  slice_max_len : Nat
  deriving DecidableEq

/-- Outcome of `Mapping::new`: the `assert!` panic, the `?`-propagated
I/O error from opening `/dev/mem`, or a constructed `Mapping`. -/
inductive NewResult where
  | panicked : NewResult
  | ioError : NewResult
  | ok (m : Mapping) : NewResult
  deriving DecidableEq

/-- `Mapping::new(physical_addr, len)` from `src/lib.rs`, together with
the trace of syscalls it issues.  Faithful to the source: it asserts
`len > 0`, computes `frame_offset` and `frame_addr`, opens `/dev/mem`
(propagating failure with `?`), calls `mmap` with length
`len + frame_offset` at file offset `frame_addr`, and builds the struct
from whatever `mmap` returned — the source never compares the result
against `MAP_FAILED`, so a failed `mmap` still yields `Ok`. -/
def Mapping.new (env : Env) (physical_addr len : Nat) : NewResult × List Syscall :=
  if len = 0 then (NewResult.panicked, [])
  else
    let page_size := env.pageSize
    let frame_offset := physical_addr % page_size
    let frame_addr := physical_addr - frame_offset
    if env.openOk = false then (NewResult.ioError, [Syscall.openDevMem])
    else
      let map_base :=
        match env.mmap (len + frame_offset) frame_addr with
        | some b => b
        | none => MAP_FAILED
      let slice_base := (map_base + frame_offset) % WORD
      (NewResult.ok ⟨map_base, len + frame_offset, slice_base, len⟩,
       [Syscall.openDevMem, Syscall.mmap (len + frame_offset) frame_addr])

/-- `Mapping::as_slice(slice_len)`: the bytes of memory at addresses
`slice_base, slice_base+1, …, slice_base+slice_len-1`. -/
def Mapping.as_slice (m : Mapping) (mem : Mem) (slice_len : Nat) : List Nat :=
  (List.range slice_len).map (fun i => mem (m.slice_base + i))

/-- `Mapping::copy_into_slice(dst)`: asserts
`slice_max_len >= dst.len()` (`none` models the panic), then replaces
the contents of `dst` with `as_slice(dst.len())`; returns the new
contents of `dst`. -/
def Mapping.copy_into_slice (m : Mapping) (mem : Mem) (dst : List Nat) :
    Option (List Nat) :=
  if m.slice_max_len ≥ dst.length then some (m.as_slice mem dst.length)
  else none

/-- Writing the bytes of `src` into memory starting at address `base`:
the effect of `mapped_slice.copy_from_slice(src)` on `as_mut_slice`. -/
def writeMem (base : Nat) (src : List Nat) (mem : Mem) : Mem :=
  fun a => if base ≤ a ∧ a - base < src.length then src.getD (a - base) 0 else mem a

/-- `Mapping::copy_from_slice(src)`: asserts
`slice_max_len >= src.len()` (`none` models the panic), then copies
`src` into the mapped view at `slice_base`.  The method takes
`&mut self` but assigns no field, so the returned `Mapping` is the
receiver unchanged. -/
def Mapping.copy_from_slice (m : Mapping) (mem : Mem) (src : List Nat) :
    Option (Mapping × Mem) :=
  if m.slice_max_len ≥ src.length then some (m, writeMem m.slice_base src mem)
  else none

/-- `impl Drop for Mapping`: one `munmap(map_base, len)` whose result is
discarded (`let _ = …`); the trace of syscalls issued by `drop`. -/
def Mapping.drop (env : Env) (m : Mapping) : List Syscall :=
  let _ := env.munmapRes m.map_base m.len
  [Syscall.munmap m.map_base m.len]

/-- Outcome of the one-shot helpers. -/
inductive HelperResult (α : Type) where
  | panicked : HelperResult α
  | ioError : HelperResult α
  | ok (a : α) : HelperResult α
  deriving DecidableEq

/-- `read_into_slice(physical_addr, dst)`: builds a `Mapping` of
`dst.len()` bytes, does one read transfer, and drops the mapping when
the scope ends; returns the bytes read and the syscall trace. -/
def read_into_slice (env : Env) (physical_addr : Nat) (mem : Mem)
    (dst : List Nat) : HelperResult (List Nat) × List Syscall :=
  match Mapping.new env physical_addr dst.length with
  | (NewResult.panicked, tr) => (HelperResult.panicked, tr)
  | (NewResult.ioError, tr) => (HelperResult.ioError, tr)
  | (NewResult.ok m, tr) =>
      match m.copy_into_slice mem dst with
      | none => (HelperResult.panicked, tr ++ Mapping.drop env m)
      | some r => (HelperResult.ok r, tr ++ Mapping.drop env m)

/-- `write_from_slice(physical_addr, src)`: builds a `Mapping` of
`src.len()` bytes, does one write transfer, and drops the mapping when
the scope ends; returns the final memory and the syscall trace. -/
def write_from_slice (env : Env) (physical_addr : Nat) (mem : Mem)
    (src : List Nat) : HelperResult Mem × List Syscall :=
  match Mapping.new env physical_addr src.length with
  | (NewResult.panicked, tr) => (HelperResult.panicked, tr)
  | (NewResult.ioError, tr) => (HelperResult.ioError, tr)
  | (NewResult.ok m, tr) =>
      match m.copy_from_slice mem src with
      | none => (HelperResult.panicked, tr ++ Mapping.drop env m)
      | some p => (HelperResult.ok p.2, tr ++ Mapping.drop env m)

/-- The data-model invariant of the spec: the usable view starts inside
the mapped region and never extends past its end. -/
def Mapping.invariant (m : Mapping) : Prop :=
  m.map_base ≤ m.slice_base ∧ m.slice_base < m.map_base + m.len ∧
  m.slice_base + m.slice_max_len ≤ m.map_base + m.len

/-- A concrete environment whose `mmap` always fails. -/
def envMmapFail : Env :=
  { pageSize := 4096, openOk := true, mmap := fun _ _ => none,
    munmapRes := fun _ _ => -1 }

/-- A concrete environment whose syscalls all succeed; `mmap` returns
base address 65536. -/
def envOk : Env :=
  { pageSize := 4096, openOk := true, mmap := fun _ _ => some 65536,
    munmapRes := fun _ _ => 0 }

/-- A concrete memory for witnesses. -/
def memW : Mem := fun a => a % 256

/-- Any `Mapping` returned by `Mapping::new(_, len)` stores the caller's
requested `len` as its `slice_max_len`. -/
theorem new_ok_slice_max_len (env : Env) (pa len : Nat) (m : Mapping)
    (h : (Mapping.new env pa len).1 = NewResult.ok m) : m.slice_max_len = len := by
  unfold Mapping.new at h
  by_cases h0 : len = 0
  · simp [h0] at h
  · by_cases ho : env.openOk
    · simp [h0, ho] at h
      rw [← h]
    · simp [h0, ho] at h

/-- `as_slice` produces exactly `slice_len` bytes. -/
theorem as_slice_length (m : Mapping) (mem : Mem) (n : Nat) :
    (m.as_slice mem n).length = n := by
  simp [Mapping.as_slice]

/-- The `i`-th byte produced by `as_slice` is the byte of memory at
address `slice_base + i`. -/
theorem as_slice_getD (m : Mapping) (mem : Mem) (n i : Nat) (hi : i < n) :
    (m.as_slice mem n).getD i 0 = mem (m.slice_base + i) := by
  unfold Mapping.as_slice
  rw [List.getD_eq_getElem _ _ (by simpa using hi)]
  simp

/-- Writing back into memory the very bytes read from it is the
identity on memory. -/
theorem writeMem_as_slice (m : Mapping) (mem : Mem) (n : Nat) :
    writeMem m.slice_base (m.as_slice mem n) mem = mem := by
  funext a
  unfold writeMem
  by_cases h : m.slice_base ≤ a ∧ a - m.slice_base < (m.as_slice mem n).length
  · rw [if_pos h]
    have hn : a - m.slice_base < n := by
      have := h.2
      rwa [as_slice_length] at this
    rw [as_slice_getD m mem n _ hn, Nat.add_sub_cancel' h.1]
  · rw [if_neg h]

/-- Bytes written through `writeMem` inside the written range. -/
theorem writeMem_inside (base : Nat) (src : List Nat) (mem : Mem) (i : Nat)
    (hi : i < src.length) : writeMem base src mem (base + i) = src.getD i 0 := by
  unfold writeMem
  rw [if_pos ⟨Nat.le_add_right _ _, by simpa using hi⟩]
  simp

/-- Bytes outside the written range are untouched by `writeMem`. -/
theorem writeMem_outside (base : Nat) (src : List Nat) (mem : Mem) (a : Nat)
    (ha : a < base ∨ base + src.length ≤ a) : writeMem base src mem a = mem a := by
  unfold writeMem
  rcases ha with ha | ha
  · rw [if_neg]
    rintro ⟨hb, _⟩
    exact absurd ha (Nat.not_lt.mpr hb)
  · rw [if_neg]
    rintro ⟨hb, hlt⟩
    have : a < base + src.length := by omega
    omega

/-- C1: claimed — if `mmap` fails during `Mapping::new`, an I/O error is
returned and no `Mapping` holding a failed mapping is constructed, no
unmap attempted.  The code never checks `mmap`'s return value against
`MAP_FAILED`: with `physical_addr = 4096`, `len = 8` and a failing
`mmap`, `new` returns `Ok` with `map_base = MAP_FAILED` (not an I/O
error), and dropping that value attempts `munmap(MAP_FAILED, 8)`. -/
theorem c1_mmap_failure_not_surfaced :
    (Mapping.new envMmapFail 4096 8).1 =
      NewResult.ok ⟨MAP_FAILED, 8, MAP_FAILED, 8⟩ ∧
    (Mapping.new envMmapFail 4096 8).1 ≠ NewResult.ioError ∧
    Mapping.drop envMmapFail ⟨MAP_FAILED, 8, MAP_FAILED, 8⟩ =
      [Syscall.munmap MAP_FAILED 8] := by
  refine ⟨by decide, by decide, rfl⟩

/-- C2: with `len > 0` and `/dev/mem` opening successfully,
`Mapping::new` issues exactly one `mmap` of `len + physical_addr % P`
bytes at file offset `physical_addr - physical_addr % P`, and when that
`mmap` returns base `b` (no pointer wrap) the constructed mapping has
`slice_base = b + frame_offset` and records the padded length. -/
theorem c2_page_alignment (env : Env) (pa len : Nat)
    (hlen : 0 < len) (hopen : env.openOk = true) :
    (Mapping.new env pa len).2 =
      [Syscall.openDevMem,
       Syscall.mmap (len + pa % env.pageSize) (pa - pa % env.pageSize)] ∧
    ∀ b : Nat, env.mmap (len + pa % env.pageSize) (pa - pa % env.pageSize) = some b →
      b + pa % env.pageSize < WORD →
      (Mapping.new env pa len).1 =
        NewResult.ok ⟨b, len + pa % env.pageSize, b + pa % env.pageSize, len⟩ := by
  have h0 : ¬ len = 0 := Nat.pos_iff_ne_zero.mp hlen
  constructor
  · simp [Mapping.new, h0, hopen]
  · intro b hb hlt
    simp [Mapping.new, h0, hopen, hb, Nat.mod_eq_of_lt hlt]

/-- Witness for C2 at `envOk`, `physical_addr = 4100`, `len = 8`
(page size 4096, so `frame_offset = 4`, `frame_base = 4096`). -/
theorem c2_page_alignment_witness :
    (Mapping.new envOk 4100 8).2 =
      [Syscall.openDevMem, Syscall.mmap 12 4096] ∧
    (Mapping.new envOk 4100 8).1 = NewResult.ok ⟨65536, 12, 65540, 8⟩ := by
  have h := c2_page_alignment envOk 4100 8 (by decide) rfl
  exact ⟨h.1, h.2 65536 rfl (by decide)⟩

/-- C3: for a mapping produced by a successful `Mapping::new` and
buffers of the originally requested length, reading, writing the bytes
back, and reading again yields the first read's bytes. -/
theorem c3_read_writeback_read (env : Env) (pa len : Nat) (mem : Mem)
    (m : Mapping) (dst1 dst2 : List Nat)
    (hm : (Mapping.new env pa len).1 = NewResult.ok m)
    (h1 : dst1.length = len) (h2 : dst2.length = len) :
    ∃ r1 m' mem2,
      m.copy_into_slice mem dst1 = some r1 ∧
      m.copy_from_slice mem r1 = some (m', mem2) ∧
      m'.copy_into_slice mem2 dst2 = some r1 := by
  have hsm : m.slice_max_len = len := new_ok_slice_max_len env pa len m hm
  refine ⟨m.as_slice mem len, m, mem, ?_, ?_, ?_⟩
  · simp [Mapping.copy_into_slice, h1, hsm]
  · rw [Mapping.copy_from_slice, if_pos (by simp [as_slice_length, hsm]),
      writeMem_as_slice]
  · simp [Mapping.copy_into_slice, h2, hsm]

/-- Witness for C3: a concrete mapping built by `Mapping::new` over
`envOk` and concrete memory. -/
theorem c3_read_writeback_read_witness :
    ∃ r1 m' mem2,
      (Mapping.mk 65536 12 65540 8).copy_into_slice memW
        [0, 0, 0, 0, 0, 0, 0, 0] = some r1 ∧
      (Mapping.mk 65536 12 65540 8).copy_from_slice memW r1 = some (m', mem2) ∧
      m'.copy_into_slice mem2 [0, 0, 0, 0, 0, 0, 0, 0] = some r1 :=
  c3_read_writeback_read envOk 4100 8 memW ⟨65536, 12, 65540, 8⟩
    [0, 0, 0, 0, 0, 0, 0, 0] [0, 0, 0, 0, 0, 0, 0, 0] (by decide) rfl rfl

/-- C4: a transfer buffer longer than `slice_max_len` makes both
`copy_into_slice` and `copy_from_slice` hit the `assert!` (modelled as
`none`): no bytes are copied, nothing is clamped. -/
theorem c4_oversized_transfer_panics (m : Mapping) (mem : Mem)
    (dst src : List Nat)
    (hd : m.slice_max_len < dst.length) (hs : m.slice_max_len < src.length) :
    m.copy_into_slice mem dst = none ∧ m.copy_from_slice mem src = none := by
  constructor
  · rw [Mapping.copy_into_slice, if_neg (Nat.not_le.mpr hd)]
  · rw [Mapping.copy_from_slice, if_neg (Nat.not_le.mpr hs)]

/-- Witness for C4: a mapping with `slice_max_len = 1` and buffers of
length 2. -/
theorem c4_oversized_transfer_panics_witness :
    (Mapping.mk 65536 4096 65536 1).copy_into_slice memW [0, 0] = none ∧
    (Mapping.mk 65536 4096 65536 1).copy_from_slice memW [0, 0] = none :=
  c4_oversized_transfer_panics ⟨65536, 4096, 65536, 1⟩ memW [0, 0] [0, 0]
    (by decide) (by decide)

/-- C5: `Mapping::new` with `len = 0` hits `assert!(len > 0)`: it
panics for every environment and every physical address, and in
particular never returns `Ok`. -/
theorem c5_zero_length_panics (env : Env) (pa : Nat) :
    (Mapping.new env pa 0).1 = NewResult.panicked := by
  simp [Mapping.new]

/-- C6: claimed — every mapping returned by a successful `Mapping::new`
satisfies the view invariants.  Because `mmap` failure is unchecked
(see C1), `new` over a failing `mmap` with `physical_addr = 4100`,
`len = 8` returns `Ok` with `map_base = MAP_FAILED` and a wrapped
`slice_base = 3`, which violates
`map_base ≤ slice_base` — the usable view does not lie inside the
mapped region. -/
theorem c6_invariant_violated_on_mmap_failure :
    (Mapping.new envMmapFail 4100 8).1 = NewResult.ok ⟨MAP_FAILED, 12, 3, 8⟩ ∧
    ¬ Mapping.invariant ⟨MAP_FAILED, 12, 3, 8⟩ := by
  constructor
  · decide
  · intro h
    exact absurd h.1 (by decide)

/-- `read_into_slice` maps `dst.len()` bytes at `physical_addr`, fails
(with an error or a panic) exactly when `Mapping::new` does, and
otherwise returns the one read transfer's bytes and unmaps once. -/
theorem read_into_slice_spec (env : Env) (pa : Nat) (mem : Mem) (dst : List Nat) :
    ((read_into_slice env pa mem dst).1 = HelperResult.ioError ↔
      (Mapping.new env pa dst.length).1 = NewResult.ioError) ∧
    ((read_into_slice env pa mem dst).1 = HelperResult.panicked ↔
      (Mapping.new env pa dst.length).1 = NewResult.panicked) ∧
    ∀ m : Mapping, (Mapping.new env pa dst.length).1 = NewResult.ok m →
      read_into_slice env pa mem dst =
        (HelperResult.ok (m.as_slice mem dst.length),
         (Mapping.new env pa dst.length).2 ++ [Syscall.munmap m.map_base m.len]) := by
  rcases hE : Mapping.new env pa dst.length with ⟨r, tr⟩
  cases r with
  | panicked => simp [read_into_slice, hE]
  | ioError => simp [read_into_slice, hE]
  | ok m =>
    have hsm : m.slice_max_len = dst.length :=
      new_ok_slice_max_len env pa dst.length m (by rw [hE])
    refine ⟨by simp [read_into_slice, hE, Mapping.copy_into_slice, hsm],
            by simp [read_into_slice, hE, Mapping.copy_into_slice, hsm], ?_⟩
    intro m0 hm0
    simp only [Prod.fst, NewResult.ok.injEq] at hm0
    subst hm0
    simp [read_into_slice, hE, Mapping.copy_into_slice, hsm, Mapping.drop]

/-- `write_from_slice` maps `src.len()` bytes at `physical_addr`, fails
exactly when `Mapping::new` does, and otherwise performs the one write
transfer and unmaps once. -/
theorem write_from_slice_spec (env : Env) (pa : Nat) (mem : Mem) (src : List Nat) :
    ((write_from_slice env pa mem src).1 = HelperResult.ioError ↔
      (Mapping.new env pa src.length).1 = NewResult.ioError) ∧
    ((write_from_slice env pa mem src).1 = HelperResult.panicked ↔
      (Mapping.new env pa src.length).1 = NewResult.panicked) ∧
    ∀ m : Mapping, (Mapping.new env pa src.length).1 = NewResult.ok m →
      write_from_slice env pa mem src =
        (HelperResult.ok (writeMem m.slice_base src mem),
         (Mapping.new env pa src.length).2 ++ [Syscall.munmap m.map_base m.len]) := by
  rcases hE : Mapping.new env pa src.length with ⟨r, tr⟩
  cases r with
  | panicked => simp [write_from_slice, hE]
  | ioError => simp [write_from_slice, hE]
  | ok m =>
    have hsm : m.slice_max_len = src.length :=
      new_ok_slice_max_len env pa src.length m (by rw [hE])
    refine ⟨by simp [write_from_slice, hE, Mapping.copy_from_slice, hsm],
            by simp [write_from_slice, hE, Mapping.copy_from_slice, hsm], ?_⟩
    intro m0 hm0
    simp only [Prod.fst, NewResult.ok.injEq] at hm0
    subst hm0
    simp [write_from_slice, hE, Mapping.copy_from_slice, hsm, Mapping.drop]

/-- C7: both helpers construct a mapping sized to the buffer at the
given physical address, error (or panic) iff that construction does,
and on success perform exactly their one transfer and one unmap. -/
theorem c7_helpers_compose (env : Env) (pa : Nat) (mem : Mem) (dst src : List Nat) :
    (((read_into_slice env pa mem dst).1 = HelperResult.ioError ↔
       (Mapping.new env pa dst.length).1 = NewResult.ioError) ∧
     ((read_into_slice env pa mem dst).1 = HelperResult.panicked ↔
       (Mapping.new env pa dst.length).1 = NewResult.panicked) ∧
     ∀ m : Mapping, (Mapping.new env pa dst.length).1 = NewResult.ok m →
       read_into_slice env pa mem dst =
         (HelperResult.ok (m.as_slice mem dst.length),
          (Mapping.new env pa dst.length).2 ++ [Syscall.munmap m.map_base m.len])) ∧
    (((write_from_slice env pa mem src).1 = HelperResult.ioError ↔
       (Mapping.new env pa src.length).1 = NewResult.ioError) ∧
     ((write_from_slice env pa mem src).1 = HelperResult.panicked ↔
       (Mapping.new env pa src.length).1 = NewResult.panicked) ∧
     ∀ m : Mapping, (Mapping.new env pa src.length).1 = NewResult.ok m →
       write_from_slice env pa mem src =
         (HelperResult.ok (writeMem m.slice_base src mem),
          (Mapping.new env pa src.length).2 ++ [Syscall.munmap m.map_base m.len])) :=
  ⟨read_into_slice_spec env pa mem dst, write_from_slice_spec env pa mem src⟩

/-- Witness for C7 at `envOk`, `physical_addr = 4100`, buffers of
length 4. -/
theorem c7_helpers_compose_witness :
    read_into_slice envOk 4100 memW [0, 0, 0, 0] =
      (HelperResult.ok ((Mapping.mk 65536 8 65540 4).as_slice memW 4),
       [Syscall.openDevMem, Syscall.mmap 8 4096, Syscall.munmap 65536 8]) ∧
    write_from_slice envOk 4100 memW [1, 2, 3, 4] =
      (HelperResult.ok (writeMem 65540 [1, 2, 3, 4] memW),
       [Syscall.openDevMem, Syscall.mmap 8 4096, Syscall.munmap 65536 8]) := by
  have h := c7_helpers_compose envOk 4100 memW [0, 0, 0, 0] [1, 2, 3, 4]
  exact ⟨h.1.2.2 ⟨65536, 8, 65540, 4⟩ (by decide),
         h.2.2.2 ⟨65536, 8, 65540, 4⟩ (by decide)⟩

/-- C8: for an in-bounds destination buffer, `copy_into_slice` returns
exactly `dst.len()` bytes, the `i`-th being the byte of memory at
`slice_base + i` — byte for byte, untransformed. -/
theorem c8_copy_into_exact (m : Mapping) (mem : Mem) (dst : List Nat)
    (h : dst.length ≤ m.slice_max_len) :
    ∃ r, m.copy_into_slice mem dst = some r ∧ r.length = dst.length ∧
      ∀ i, i < dst.length → r.getD i 0 = mem (m.slice_base + i) := by
  refine ⟨m.as_slice mem dst.length, ?_, as_slice_length m mem dst.length, ?_⟩
  · simp [Mapping.copy_into_slice, h]
  · intro i hi
    exact as_slice_getD m mem dst.length i hi

/-- Witness for C8 at a concrete mapping and 2-byte buffer. -/
theorem c8_copy_into_exact_witness :
    ∃ r, (Mapping.mk 65536 12 65540 8).copy_into_slice memW [0, 0] = some r ∧
      r.length = 2 ∧ ∀ i, i < 2 → r.getD i 0 = memW (65540 + i) :=
  c8_copy_into_exact ⟨65536, 12, 65540, 8⟩ memW [0, 0] (by decide)

/-- C9: dropping a `Mapping` issues exactly one `munmap` of the full
mapped region `(map_base, len)`, and its outcome is discarded: the
drop's behaviour is identical under any `munmap` result and never
fails. -/
theorem c9_drop_munmaps_once (env env2 : Env) (m : Mapping) :
    Mapping.drop env m = [Syscall.munmap m.map_base m.len] ∧
    Mapping.drop env m = Mapping.drop env2 m :=
  ⟨rfl, rfl⟩

/-- C10: for an in-bounds source buffer of length `k`,
`copy_from_slice` writes exactly `src` to view positions `[0, k)`,
leaves every other memory address unchanged, and leaves every field of
the `Mapping` unchanged. -/
theorem c10_copy_from_frame (m : Mapping) (mem : Mem) (src : List Nat)
    (h : src.length ≤ m.slice_max_len) :
    ∃ p : Mapping × Mem, m.copy_from_slice mem src = some p ∧ p.1 = m ∧
      (∀ i, i < src.length → p.2 (m.slice_base + i) = src.getD i 0) ∧
      (∀ a, a < m.slice_base ∨ m.slice_base + src.length ≤ a → p.2 a = mem a) := by
  refine ⟨(m, writeMem m.slice_base src mem), ?_, rfl, ?_, ?_⟩
  · simp [Mapping.copy_from_slice, h]
  · intro i hi
    exact writeMem_inside m.slice_base src mem i hi
  · intro a ha
    exact writeMem_outside m.slice_base src mem a ha

/-- Witness for C10 at a concrete mapping and 3-byte source. -/
theorem c10_copy_from_frame_witness :
    ∃ p : Mapping × Mem,
      (Mapping.mk 65536 12 65540 8).copy_from_slice memW [9, 8, 7] = some p ∧
      p.1 = Mapping.mk 65536 12 65540 8 ∧
      (∀ i, i < 3 → p.2 (65540 + i) = [9, 8, 7].getD i 0) ∧
      (∀ a, a < 65540 ∨ 65540 + 3 ≤ a → p.2 a = memW a) :=
  c10_copy_from_frame ⟨65536, 12, 65540, 8⟩ memW [9, 8, 7] (by decide)
